import Mathlib

/-!
# Topology forwarder (`graffiti/pod/forwarder.go`)

A shallow embedding of the `TopologyForwarder` of `graffiti/pod/forwarder.go`.

The forwarder is purely reactive: each of its methods is an event handler whose
only result is a side effect on its two collaborators (the graph and the master
election) and on the logger.  A handler is therefore embedded as a function
`TopologyForwarder → TopologyForwarder` over a value that holds the state of the
collaborators the Go struct points to, together with the ordered list of the
effects performed so far.
-/

namespace Skydive

/-! ## Collaborator types (declared in other packages) -/

/-- Modelled from the spec: `graph.Node`, an opaque identified graph vertex
(its declaration is in the `graph` package). -/
structure Node where
  ID : String
  deriving DecidableEq, Repr

/-- Modelled from the spec: `graph.Edge`, an opaque identified connection between
two nodes (its declaration is in the `graph` package). -/
structure Edge where
  ID : String
  Parent : String
  Child : String
  deriving DecidableEq, Repr

/-- Modelled from the spec: the element snapshot returned by `Graph.Elements()`,
all nodes and all edges of the graph at one instant. -/
structure Elements where
  Nodes : List Node
  Edges : List Edge
  deriving DecidableEq, Repr

/-- Modelled from the spec: the state of `graph.Graph` that the forwarder can
observe: the stored nodes and edges, and the number of holders of the shared
read lock. -/
structure Graph where
  nodes : List Node
  edges : List Edge
  readers : Nat
  deriving DecidableEq, Repr

/-- Modelled from the spec: `Graph.Elements()` returns all current nodes and edges. -/
def Graph.Elements (g : Graph) : Elements :=
  { Nodes := g.nodes, Edges := g.edges }

/-- Modelled from the spec: `Graph.RLock()` takes the shared read lock. -/
def Graph.RLock (g : Graph) : Graph :=
  { g with readers := g.readers + 1 }

/-- Modelled from the spec: `Graph.RUnlock()` gives the shared read lock back. -/
def Graph.RUnlock (g : Graph) : Graph :=
  { g with readers := g.readers - 1 }

/-- Modelled from the spec: a concrete `ws.Speaker`, a remote endpoint with the
address and port that `GetAddrPort` reports.  The Go `nil` speaker is `none` of
`Option Speaker`. -/
structure Speaker where
  addr : String
  port : Int
  deriving DecidableEq, Repr

/-- The method `GetAddrPort` of a speaker. -/
def Speaker.GetAddrPort (c : Speaker) : String × Int :=
  (c.addr, c.port)

/-- The seven message type constants of the `gws` package that the forwarder uses. -/
inductive MsgType where
  | SyncMsgType
  | NodeUpdatedMsgType
  | NodeAddedMsgType
  | NodeDeletedMsgType
  | EdgeUpdatedMsgType
  | EdgeAddedMsgType
  | EdgeDeletedMsgType
  deriving DecidableEq, Repr

/-- The struct `gws.SyncMsg`, of which the forwarder sets the field `Elements`. -/
structure SyncMsg where
  Elements : Elements
  deriving DecidableEq, Repr

/-- The object a struct message carries: the forwarder passes a `*gws.SyncMsg`,
a `*graph.Node` or a `*graph.Edge`. -/
inductive Payload where
  | sync (msg : SyncMsg)
  | node (n : Node)
  | edge (e : Edge)
  deriving DecidableEq, Repr

/-- A struct message: its type tag and the object it wraps. -/
structure StructMessage where
  msgType : MsgType
  Obj : Payload
  deriving DecidableEq, Repr

/-- Modelled from the spec: `gws.NewStructMessage(typ, obj)` wraps the object in
a message tagged with the given type. -/
def NewStructMessage (typ : MsgType) (obj : Payload) : StructMessage :=
  { msgType := typ, Obj := obj }

/-- Modelled from the spec: the state of `ws.MasterElection` seen from the
forwarder: the endpoint currently elected (or none), and the messages that
reached an endpoint, in order, each with the endpoint that got it. -/
structure MasterElection where
  master : Option Speaker
  delivered : List (Speaker × StructMessage)
  deriving DecidableEq, Repr

/-- Modelled from the spec: `MasterElection.SendMessageToMaster(msg)` sends to
whichever endpoint is currently elected and is a no-op when there is no master. -/
def MasterElection.SendMessageToMaster (a : MasterElection) (msg : StructMessage) :
    MasterElection :=
  match a.master with
  | none => a
  | some m => { a with delivered := a.delivered ++ [(m, msg)] }

/-- Modelled from the spec: `MasterElection.GetMaster()`. -/
def MasterElection.GetMaster (a : MasterElection) : Option Speaker :=
  a.master

/-- Modelled from the spec: `ws.NewMasterElection(pool)`: nothing is elected and
nothing was delivered yet. -/
def NewMasterElection : MasterElection :=
  { master := none, delivered := [] }

/-! ## Effects -/

/-- The two logger levels the forwarder uses (`Infof` and `Warn`). -/
inductive LogLevel where
  | Info
  | Warn
  deriving DecidableEq, Repr

/-- One observable effect of a handler on its collaborators. -/
inductive Effect where
  | log (level : LogLevel) (text : String)
  | rlock
  | elements (snapshot : Elements)
  | send (msg : StructMessage)
  | runlock
  deriving DecidableEq, Repr

/-! ## The forwarder -/

/-- The struct `TopologyForwarder`.  The fields `masterElection` and `graph` are
pointers in the source; here they hold the current state of the object pointed
to.  The field `effects` is the ordered record of what the handlers did. -/
structure TopologyForwarder where
  masterElection : MasterElection
  graph : Graph
  host : String
  effects : List Effect
  deriving DecidableEq, Repr

namespace TopologyForwarder

/-- A call of `logging.GetLogger().Infof` or `.Warn`. -/
def logCall (t : TopologyForwarder) (level : LogLevel) (text : String) : TopologyForwarder :=
  { t with effects := t.effects ++ [Effect.log level text] }

/-- The call `t.graph.RLock()`. -/
def doRLock (t : TopologyForwarder) : TopologyForwarder :=
  { t with graph := t.graph.RLock, effects := t.effects ++ [Effect.rlock] }

/-- The call `t.graph.RUnlock()`. -/
def doRUnlock (t : TopologyForwarder) : TopologyForwarder :=
  { t with graph := t.graph.RUnlock, effects := t.effects ++ [Effect.runlock] }

/-- The call `t.graph.Elements()`: the snapshot, and the forwarder with the read recorded. -/
def doElements (t : TopologyForwarder) : Elements × TopologyForwarder :=
  (t.graph.Elements, { t with effects := t.effects ++ [Effect.elements t.graph.Elements] })

/-- The call `t.masterElection.SendMessageToMaster(msg)`. -/
def doSend (t : TopologyForwarder) (msg : StructMessage) : TopologyForwarder :=
  { t with
    masterElection := t.masterElection.SendMessageToMaster msg,
    effects := t.effects ++ [Effect.send msg] }

/-- The method `triggerResync`: log, take the read lock, defer its release, build the
`SyncMsg` from `t.graph.Elements()`, send it, and run the deferred release on return. -/
def triggerResync (t : TopologyForwarder) : TopologyForwarder :=
  let t1 := t.logCall LogLevel.Info ("Start a re-sync for " ++ t.host)
  let t2 := t1.doRLock
  -- `defer t.graph.RUnlock()` runs when the function returns
  let r := t2.doElements
  let msg : SyncMsg := { Elements := r.1 }
  let t3 := r.2.doSend (NewStructMessage MsgType.SyncMsgType (Payload.sync msg))
  t3.doRUnlock

/-- The method `OnNewMaster`, called by the master election when the master changes. -/
def OnNewMaster (t : TopologyForwarder) (c : Option Speaker) : TopologyForwarder :=
  match c with
  | none => t.logCall LogLevel.Warn "Lost connection to master"
  | some c =>
    let ap := c.GetAddrPort
    let t1 := t.logCall LogLevel.Info
      ("Using " ++ ap.1 ++ ":" ++ toString ap.2 ++ " as master of topology forwarder")
    t1.triggerResync

/-- The method `OnNodeUpdated`. -/
def OnNodeUpdated (t : TopologyForwarder) (n : Node) : TopologyForwarder :=
  t.doSend (NewStructMessage MsgType.NodeUpdatedMsgType (Payload.node n))

/-- The method `OnNodeAdded`. -/
def OnNodeAdded (t : TopologyForwarder) (n : Node) : TopologyForwarder :=
  t.doSend (NewStructMessage MsgType.NodeAddedMsgType (Payload.node n))

/-- The method `OnNodeDeleted`. -/
def OnNodeDeleted (t : TopologyForwarder) (n : Node) : TopologyForwarder :=
  t.doSend (NewStructMessage MsgType.NodeDeletedMsgType (Payload.node n))

/-- The method `OnEdgeUpdated`. -/
def OnEdgeUpdated (t : TopologyForwarder) (e : Edge) : TopologyForwarder :=
  t.doSend (NewStructMessage MsgType.EdgeUpdatedMsgType (Payload.edge e))

/-- The method `OnEdgeAdded`. -/
def OnEdgeAdded (t : TopologyForwarder) (e : Edge) : TopologyForwarder :=
  t.doSend (NewStructMessage MsgType.EdgeAddedMsgType (Payload.edge e))

/-- The method `OnEdgeDeleted`. -/
def OnEdgeDeleted (t : TopologyForwarder) (e : Edge) : TopologyForwarder :=
  t.doSend (NewStructMessage MsgType.EdgeDeletedMsgType (Payload.edge e))

/-- The method `GetMaster`. -/
def GetMaster (t : TopologyForwarder) : Option Speaker :=
  t.masterElection.GetMaster

end TopologyForwarder

/-- The constructor `NewTopologyForwarder(host, g, pool)`: a fresh master election, the
given graph and host; the registrations with both collaborators are what makes the
handlers get called. -/
def NewTopologyForwarder (host : String) (g : Graph) : TopologyForwarder :=
  { masterElection := NewMasterElection, graph := g, host := host, effects := [] }

/-! ## Observations on the effect record -/

/-- The message of a send effect. -/
def Effect.sentMessage : Effect → Option StructMessage
  | Effect.send msg => some msg
  | _ => none

/-- The messages handed to `SendMessageToMaster` so far, in order. -/
def sentMessages (t : TopologyForwarder) : List StructMessage :=
  t.effects.filterMap Effect.sentMessage

/-- Each effect of a list paired with the number of read locks held just before it,
counting from `d` holders at the start. -/
def lockDepths : Nat → List Effect → List (Effect × Nat)
  | _, [] => []
  | d, Effect.rlock :: rest => (Effect.rlock, d) :: lockDepths (d + 1) rest
  | d, Effect.runlock :: rest => (Effect.runlock, d) :: lockDepths (d - 1) rest
  | d, e :: rest => (e, d) :: lockDepths d rest

/-- Whether an effect is a call of `SendMessageToMaster`. -/
def Effect.isSend : Effect → Bool
  | Effect.send _ => true
  | _ => false

/-- Whether an effect is a call of `Graph.Elements()`. -/
def Effect.isElements : Effect → Bool
  | Effect.elements _ => true
  | _ => false

/-- Whether an effect is a logger call. -/
def Effect.isLog : Effect → Bool
  | Effect.log _ _ => true
  | _ => false

/-! ## Sequential runs -/

/-- The six kinds of graph mutation the graph reports to its listeners, each with
the element concerned. -/
inductive Mutation where
  | NodeUpdated (n : Node)
  | NodeAdded (n : Node)
  | NodeDeleted (n : Node)
  | EdgeUpdated (e : Edge)
  | EdgeAdded (e : Edge)
  | EdgeDeleted (e : Edge)
  deriving DecidableEq, Repr

/-- An event the forwarder is called back for: a change of master reported by the
election (`none` when the master is lost), or a committed graph mutation. -/
inductive Event where
  | masterChanged (c : Option Speaker)
  | mutated (μ : Mutation)
  deriving DecidableEq, Repr

/-- Modelled from the spec: what the graph does when it commits a mutation, before
it calls its listeners: a store of elements identified by their ID. -/
def Graph.commit (g : Graph) : Mutation → Graph
  | Mutation.NodeAdded n =>
    if g.nodes.any (fun x => x.ID == n.ID) then g else { g with nodes := g.nodes ++ [n] }
  | Mutation.NodeUpdated n =>
    { g with nodes := g.nodes.map (fun x => if x.ID == n.ID then n else x) }
  | Mutation.NodeDeleted n =>
    { g with nodes := g.nodes.filter (fun x => x.ID != n.ID) }
  | Mutation.EdgeAdded e =>
    if g.edges.any (fun x => x.ID == e.ID) then g else { g with edges := g.edges ++ [e] }
  | Mutation.EdgeUpdated e =>
    { g with edges := g.edges.map (fun x => if x.ID == e.ID then e else x) }
  | Mutation.EdgeDeleted e =>
    { g with edges := g.edges.filter (fun x => x.ID != e.ID) }

/-- The listener interface of the graph: the handler of the forwarder that the graph
calls for a mutation. -/
def TopologyForwarder.notify (t : TopologyForwarder) : Mutation → TopologyForwarder
  | Mutation.NodeUpdated n => t.OnNodeUpdated n
  | Mutation.NodeAdded n => t.OnNodeAdded n
  | Mutation.NodeDeleted n => t.OnNodeDeleted n
  | Mutation.EdgeUpdated e => t.OnEdgeUpdated e
  | Mutation.EdgeAdded e => t.OnEdgeAdded e
  | Mutation.EdgeDeleted e => t.OnEdgeDeleted e

/-- The handler of the forwarder that runs for an event. -/
def TopologyForwarder.handle (t : TopologyForwarder) : Event → TopologyForwarder
  | Event.masterChanged c => t.OnNewMaster c
  | Event.mutated μ => t.notify μ

/-- Modelled from the spec: what the collaborators do before they call the forwarder
back: the election makes the new endpoint (or none) the current master, the graph
commits the mutation. -/
def TopologyForwarder.environment (t : TopologyForwarder) : Event → TopologyForwarder
  | Event.masterChanged c => { t with masterElection := { t.masterElection with master := c } }
  | Event.mutated μ => { t with graph := t.graph.commit μ }

/-- One event of a sequential run: the collaborator changes its state, then calls the
handler. -/
def TopologyForwarder.step (t : TopologyForwarder) (ev : Event) : TopologyForwarder :=
  (t.environment ev).handle ev

/-- A sequential run: the events one after the other. -/
def TopologyForwarder.run (t : TopologyForwarder) (evs : List Event) : TopologyForwarder :=
  evs.foldl TopologyForwarder.step t

/-- The messages that reached an endpoint so far, each with the endpoint that got it. -/
def TopologyForwarder.delivered (t : TopologyForwarder) : List (Speaker × StructMessage) :=
  t.masterElection.delivered

/-- The effects a handler added: those of `t2` after the ones `t1` already had. -/
def effectsSince (t1 t2 : TopologyForwarder) : List Effect :=
  t2.effects.drop t1.effects.length

/-- The incremental message the spec gives for a mutation: the tag of the mutation
kind, wrapping the element of the mutation. -/
def expectedMessage : Mutation → StructMessage
  | Mutation.NodeUpdated n => { msgType := MsgType.NodeUpdatedMsgType, Obj := Payload.node n }
  | Mutation.NodeAdded n => { msgType := MsgType.NodeAddedMsgType, Obj := Payload.node n }
  | Mutation.NodeDeleted n => { msgType := MsgType.NodeDeletedMsgType, Obj := Payload.node n }
  | Mutation.EdgeUpdated e => { msgType := MsgType.EdgeUpdatedMsgType, Obj := Payload.edge e }
  | Mutation.EdgeAdded e => { msgType := MsgType.EdgeAddedMsgType, Obj := Payload.edge e }
  | Mutation.EdgeDeleted e => { msgType := MsgType.EdgeDeletedMsgType, Obj := Payload.edge e }

/-- The FullSync message the spec gives for a snapshot. -/
def fullSync (snapshot : Elements) : StructMessage :=
  { msgType := MsgType.SyncMsgType, Obj := Payload.sync { Elements := snapshot } }

/-- The empty graph, with no holder of the read lock. -/
def emptyGraph : Graph :=
  { nodes := [], edges := [], readers := 0 }

/-! ## Interleaved runs -/

/-- One atomic step of a run in which the election and the graph work concurrently:
a collaborator changes its own state for an event, or the callback of the forwarder
for an event runs.  The forwarder has no lock or queue of its own, so between the
two steps of one event a step of the other collaborator may come. -/
inductive Action where
  | collaborator (ev : Event)
  | callback (ev : Event)
  deriving DecidableEq, Repr

/-- The effect of one atomic step. -/
def TopologyForwarder.act (t : TopologyForwarder) : Action → TopologyForwarder
  | Action.collaborator ev => t.environment ev
  | Action.callback ev => t.handle ev

/-- An interleaved run: the atomic steps one after the other. -/
def TopologyForwarder.runActions (t : TopologyForwarder) (acts : List Action) :
    TopologyForwarder :=
  acts.foldl TopologyForwarder.act t

/-- A step of the graph's side: the commit of a mutation, or the call of the listener
for it. -/
inductive GraphStep where
  | commit (μ : Mutation)
  | notify (μ : Mutation)
  deriving DecidableEq, Repr

/-- The atomic step of a graph step. -/
def GraphStep.toAction : GraphStep → Action
  | GraphStep.commit μ => Action.collaborator (Event.mutated μ)
  | GraphStep.notify μ => Action.callback (Event.mutated μ)

/-- The mutation a graph step calls the listener for, if it is such a call. -/
def GraphStep.notified : GraphStep → Option Mutation
  | GraphStep.commit _ => none
  | GraphStep.notify μ => some μ

/-- The mutations the listener is called for in a list of graph steps, in order. -/
def notifiedMutations (steps : List GraphStep) : List Mutation :=
  steps.filterMap GraphStep.notified

/-- The steps of the election for a change of master: it makes `c` the master, then
calls `OnNewMaster(c)`. -/
def electionThread (c : Option Speaker) : List Action :=
  [Action.collaborator (Event.masterChanged c), Action.callback (Event.masterChanged c)]

/-- The steps of the graph for a list of mutations: each is committed, then notified. -/
def graphThread : List Mutation → List Action
  | [] => []
  | μ :: rest =>
    Action.collaborator (Event.mutated μ) :: Action.callback (Event.mutated μ) ::
      graphThread rest

/-- Whether `zs` is an interleaving of `xs` and `ys`: every step of both, each list in
its own order. -/
def isInterleaving : List Action → List Action → List Action → Bool
  | xs, ys, [] => xs.isEmpty && ys.isEmpty
  | xs, ys, z :: zs =>
    (match xs with
      | x :: xs1 => x == z && isInterleaving xs1 ys zs
      | [] => false) ||
    (match ys with
      | y :: ys1 => y == z && isInterleaving xs ys1 zs
      | [] => false)

/-- A schedule around one change of master to `c`: graph steps `before`, the election
makes `c` the master, graph steps `between`, the callback `OnNewMaster(c)` runs, graph
steps `after`. -/
def raceSchedule (c : Speaker) (before between after : List GraphStep) : List Action :=
  before.map GraphStep.toAction ++
    Action.collaborator (Event.masterChanged (some c)) ::
      (between.map GraphStep.toAction ++
        Action.callback (Event.masterChanged (some c)) :: after.map GraphStep.toAction)

/-- The messages of a delivery log that went to endpoint `c`, in order. -/
def deliveredTo (c : Speaker) (log : List (Speaker × StructMessage)) : List StructMessage :=
  (log.filter (fun p => p.1 == c)).map Prod.snd

/-! ## Concrete values for the examples -/

/-- A node named A. -/
def nodeA : Node := { ID := "A" }

/-- An edge named E from A to B. -/
def edgeE : Edge := { ID := "E", Parent := "A", Child := "B" }

/-- A first endpoint. -/
def speakerM1 : Speaker := { addr := "10.0.0.1", port := 8082 }

/-- A second endpoint. -/
def speakerM2 : Speaker := { addr := "10.0.0.2", port := 8082 }

/-- A forwarder on the empty graph before any election. -/
def freshForwarder : TopologyForwarder := NewTopologyForwarder "agent-1" emptyGraph

/-- A forwarder on a graph holding node A, with the first endpoint elected. -/
def electedForwarder : TopologyForwarder :=
  { masterElection := { master := some speakerM1, delivered := [] },
    graph := { nodes := [nodeA], edges := [], readers := 0 },
    host := "agent-1",
    effects := [] }

/-! ## Basic facts about the handlers -/

theorem effectsSince_of_append (t1 t2 : TopologyForwarder) (new : List Effect)
    (h : t2.effects = t1.effects ++ new) : effectsSince t1 t2 = new := by
  simp [effectsSince, h]

theorem doSend_effects (t : TopologyForwarder) (msg : StructMessage) :
    (t.doSend msg).effects = t.effects ++ [Effect.send msg] := rfl

theorem doSend_delivered_none (t : TopologyForwarder) (msg : StructMessage)
    (h : t.masterElection.master = none) :
    (t.doSend msg).masterElection = t.masterElection := by
  simp [TopologyForwarder.doSend, MasterElection.SendMessageToMaster, h]

theorem notify_eq_doSend (t : TopologyForwarder) (μ : Mutation) :
    t.notify μ = t.doSend (expectedMessage μ) := by
  cases μ <;> rfl

theorem OnNewMaster_some_effects (t : TopologyForwarder) (c : Speaker) :
    (t.OnNewMaster (some c)).effects = t.effects ++
      [ Effect.log LogLevel.Info
          ("Using " ++ c.addr ++ ":" ++ toString c.port ++ " as master of topology forwarder"),
        Effect.log LogLevel.Info ("Start a re-sync for " ++ t.host),
        Effect.rlock,
        Effect.elements t.graph.Elements,
        Effect.send (fullSync t.graph.Elements),
        Effect.runlock ] := by
  simp [TopologyForwarder.OnNewMaster, TopologyForwarder.triggerResync,
    TopologyForwarder.logCall, TopologyForwarder.doRLock, TopologyForwarder.doRUnlock,
    TopologyForwarder.doElements, TopologyForwarder.doSend, Speaker.GetAddrPort,
    NewStructMessage, fullSync, Graph.RLock, Graph.Elements]

theorem OnNewMaster_some_graph (t : TopologyForwarder) (c : Speaker) :
    (t.OnNewMaster (some c)).graph = t.graph := by
  simp [TopologyForwarder.OnNewMaster, TopologyForwarder.triggerResync,
    TopologyForwarder.logCall, TopologyForwarder.doRLock, TopologyForwarder.doRUnlock,
    TopologyForwarder.doElements, TopologyForwarder.doSend, Graph.RLock, Graph.RUnlock]

theorem OnNewMaster_some_election (t : TopologyForwarder) (c : Speaker) :
    (t.OnNewMaster (some c)).masterElection =
      t.masterElection.SendMessageToMaster (fullSync t.graph.Elements) := by
  simp [TopologyForwarder.OnNewMaster, TopologyForwarder.triggerResync,
    TopologyForwarder.logCall, TopologyForwarder.doRLock, TopologyForwarder.doRUnlock,
    TopologyForwarder.doElements, TopologyForwarder.doSend, NewStructMessage, fullSync,
    Graph.RLock, Graph.Elements]

theorem run_append (t : TopologyForwarder) (a b : List Event) :
    t.run (a ++ b) = (t.run a).run b := by
  simp [TopologyForwarder.run, List.foldl_append]

theorem run_cons (t : TopologyForwarder) (ev : Event) (evs : List Event) :
    t.run (ev :: evs) = (t.step ev).run evs := rfl

theorem step_mutated (t : TopologyForwarder) (μ : Mutation) (m : Speaker)
    (h : t.masterElection.master = some m) :
    (t.step (Event.mutated μ)).masterElection.master = some m ∧
    (t.step (Event.mutated μ)).delivered = t.delivered ++ [(m, expectedMessage μ)] ∧
    sentMessages (t.step (Event.mutated μ)) = sentMessages t ++ [expectedMessage μ] := by
  simp [TopologyForwarder.step, TopologyForwarder.handle, TopologyForwarder.environment,
    notify_eq_doSend, TopologyForwarder.doSend, MasterElection.SendMessageToMaster, h,
    TopologyForwarder.delivered, sentMessages, List.filterMap_append, Effect.sentMessage]

theorem run_mutations (muts : List Mutation) :
    ∀ (t : TopologyForwarder) (m : Speaker), t.masterElection.master = some m →
      (t.run (muts.map Event.mutated)).masterElection.master = some m ∧
      (t.run (muts.map Event.mutated)).delivered =
        t.delivered ++ muts.map (fun μ => (m, expectedMessage μ)) ∧
      sentMessages (t.run (muts.map Event.mutated)) =
        sentMessages t ++ muts.map expectedMessage := by
  induction muts with
  | nil => intro t m h; simp [TopologyForwarder.run, h]
  | cons μ rest ih =>
    intro t m h
    obtain ⟨h1, h2, h3⟩ := step_mutated t μ m h
    obtain ⟨k1, k2, k3⟩ := ih (t.step (Event.mutated μ)) m h1
    simp only [List.map_cons, run_cons]
    refine ⟨k1, ?_, ?_⟩
    · rw [k2, h2]; simp
    · rw [k3, h3]; simp

theorem step_masterChanged_some (t : TopologyForwarder) (c : Speaker) :
    (t.step (Event.masterChanged (some c))).masterElection.master = some c ∧
    (t.step (Event.masterChanged (some c))).delivered =
      t.delivered ++ [(c, fullSync t.graph.Elements)] := by
  simp [TopologyForwarder.step, TopologyForwarder.handle, TopologyForwarder.environment,
    OnNewMaster_some_election, MasterElection.SendMessageToMaster, TopologyForwarder.delivered]

/-! ## The claims -/

/-- C1: for every forwarder state (any graph, any previous master) and every non-nil
speaker `c`, the effects `OnNewMaster(c)` adds contain exactly one call of
`SendMessageToMaster`; its message has type `SyncMsgType` and wraps a `SyncMsg` whose
`Elements` is `graph.Elements()` of the graph at the time of the call, so no
incremental message is produced. -/
theorem C1_OnNewMaster_sends_exactly_one_FullSync (t : TopologyForwarder) (c : Speaker) :
    (effectsSince t (t.OnNewMaster (some c))).filterMap Effect.sentMessage =
      [{ msgType := MsgType.SyncMsgType,
         Obj := Payload.sync { Elements := t.graph.Elements } }] ∧
    sentMessages (t.OnNewMaster (some c)) =
      sentMessages t ++
        [NewStructMessage MsgType.SyncMsgType (Payload.sync { Elements := t.graph.Elements })] := by
  constructor
  · rw [effectsSince_of_append t _ _ (OnNewMaster_some_effects t c)]
    simp [Effect.sentMessage, fullSync]
  · simp [sentMessages, OnNewMaster_some_effects, List.filterMap_append, Effect.sentMessage,
      fullSync, NewStructMessage]

/-- C2: each of the six mutation handlers adds exactly one effect, a call of
`SendMessageToMaster` with the message whose tag matches the handler and whose object
is the element the handler was called with. -/
theorem C2_mutation_handlers_send_matching_message (t : TopologyForwarder) (n : Node) (e : Edge) :
    effectsSince t (t.OnNodeAdded n) =
      [Effect.send { msgType := MsgType.NodeAddedMsgType, Obj := Payload.node n }] ∧
    effectsSince t (t.OnNodeUpdated n) =
      [Effect.send { msgType := MsgType.NodeUpdatedMsgType, Obj := Payload.node n }] ∧
    effectsSince t (t.OnNodeDeleted n) =
      [Effect.send { msgType := MsgType.NodeDeletedMsgType, Obj := Payload.node n }] ∧
    effectsSince t (t.OnEdgeAdded e) =
      [Effect.send { msgType := MsgType.EdgeAddedMsgType, Obj := Payload.edge e }] ∧
    effectsSince t (t.OnEdgeUpdated e) =
      [Effect.send { msgType := MsgType.EdgeUpdatedMsgType, Obj := Payload.edge e }] ∧
    effectsSince t (t.OnEdgeDeleted e) =
      [Effect.send { msgType := MsgType.EdgeDeletedMsgType, Obj := Payload.edge e }] := by
  refine ⟨?_, ?_, ?_, ?_, ?_, ?_⟩ <;>
    exact effectsSince_of_append t _ _ (doSend_effects t _)

/-- C3: when a master `m` is elected and `N` graph mutations are then delivered to the
forwarder one after the other, the messages handed to `SendMessageToMaster`, and the
messages that reach `m`, are the previous ones followed by exactly `N` messages, the
i-th being the tagged message of the i-th mutation: same order, nothing dropped,
duplicated or reordered. -/
theorem C3_mutations_forwarded_in_order (t : TopologyForwarder) (m : Speaker)
    (muts : List Mutation) (h : t.masterElection.master = some m) :
    sentMessages (t.run (muts.map Event.mutated)) =
      sentMessages t ++ muts.map expectedMessage ∧
    (t.run (muts.map Event.mutated)).delivered =
      t.delivered ++ muts.map (fun μ => (m, expectedMessage μ)) ∧
    (t.run (muts.map Event.mutated)).delivered.length = t.delivered.length + muts.length ∧
    ∀ (i : Nat) (hi : i < muts.length),
      (t.run (muts.map Event.mutated)).delivered[t.delivered.length + i]? =
        some (m, expectedMessage (muts.get ⟨i, hi⟩)) := by
  obtain ⟨_, h2, h3⟩ := run_mutations muts t m h
  refine ⟨h3, h2, ?_, ?_⟩
  · rw [h2]; simp
  · intro i hi
    rw [h2, List.getElem?_append_right (Nat.le_add_right _ _)]
    simp [hi]

/-- Witness of C3 on three mutations sent while the first endpoint is elected. -/
theorem C3_mutations_forwarded_in_order_witness :
    electedForwarder.masterElection.master = some speakerM1 ∧
    (electedForwarder.run
      ([Mutation.NodeAdded nodeA, Mutation.EdgeAdded edgeE, Mutation.NodeDeleted nodeA].map
        Event.mutated)).delivered =
      [ (speakerM1, { msgType := MsgType.NodeAddedMsgType, Obj := Payload.node nodeA }),
        (speakerM1, { msgType := MsgType.EdgeAddedMsgType, Obj := Payload.edge edgeE }),
        (speakerM1, { msgType := MsgType.NodeDeletedMsgType, Obj := Payload.node nodeA }) ] :=
  ⟨rfl, (C3_mutations_forwarded_in_order electedForwarder speakerM1
    [Mutation.NodeAdded nodeA, Mutation.EdgeAdded edgeE, Mutation.NodeDeleted nodeA] rfl).2.1⟩

/-- C4: in every sequential run, take any mastership period: it starts, after any
events `pre`, with the election of a non-nil `c` and goes on with mutations `muts`
(any number of them, up to the next change of master).  What is delivered in the
period starts with the FullSync of the graph at the change, delivered to `c`, and the
incremental messages of the period come after it, in order. -/
theorem C4_FullSync_precedes_incrementals (t : TopologyForwarder) (pre : List Event)
    (c : Speaker) (muts : List Mutation) :
    (t.run (pre ++ Event.masterChanged (some c) :: muts.map Event.mutated)).delivered =
      (t.run pre).delivered ++
        (c, fullSync (t.run pre).graph.Elements) ::
          muts.map (fun μ => (c, expectedMessage μ)) := by
  rw [run_append, run_cons]
  obtain ⟨h1, h2⟩ := step_masterChanged_some (t.run pre) c
  obtain ⟨_, k2, _⟩ := run_mutations muts _ c h1
  rw [k2, h2]
  simp

/-- C5, as the spec words it, fails: on the empty graph with no master, after node A
is added and the first endpoint is then elected, the FullSync delivered to it holds
node A; it is not the empty snapshot. -/
theorem C5_scenario_counterexample :
    ((freshForwarder.step (Event.mutated (Mutation.NodeAdded nodeA))).step
        (Event.masterChanged (some speakerM1))).delivered =
      [(speakerM1, fullSync { Nodes := [nodeA], Edges := [] })] ∧
    ((freshForwarder.step (Event.mutated (Mutation.NodeAdded nodeA))).step
        (Event.masterChanged (some speakerM1))).delivered ≠
      [(speakerM1, fullSync { Nodes := [], Edges := [] })] := by
  decide

/-- C5, amended: starting from the empty graph with no master, adding node `a` delivers
no message; electing `m1` then delivers to `m1` one FullSync, whose snapshot holds `a`
already; the node-added event for `a` then delivers `NodeAdded(a)` to `m1`; the switch
to `m2` then delivers one FullSync of the snapshot holding `a` to `m2`, and no
incremental message. -/
theorem C5_scenario_amended (host : String) (a : Node) (m1 m2 : Speaker) :
    ((NewTopologyForwarder host emptyGraph).run
      [Event.mutated (Mutation.NodeAdded a)]).delivered = [] ∧
    ((NewTopologyForwarder host emptyGraph).run
      [Event.mutated (Mutation.NodeAdded a), Event.masterChanged (some m1)]).delivered =
      [(m1, fullSync { Nodes := [a], Edges := [] })] ∧
    ((NewTopologyForwarder host emptyGraph).run
      [Event.mutated (Mutation.NodeAdded a), Event.masterChanged (some m1),
       Event.mutated (Mutation.NodeAdded a)]).delivered =
      [(m1, fullSync { Nodes := [a], Edges := [] }),
       (m1, { msgType := MsgType.NodeAddedMsgType, Obj := Payload.node a })] ∧
    ((NewTopologyForwarder host emptyGraph).run
      [Event.mutated (Mutation.NodeAdded a), Event.masterChanged (some m1),
       Event.mutated (Mutation.NodeAdded a), Event.masterChanged (some m2)]).delivered =
      [(m1, fullSync { Nodes := [a], Edges := [] }),
       (m1, { msgType := MsgType.NodeAddedMsgType, Obj := Payload.node a }),
       (m2, fullSync { Nodes := [a], Edges := [] })] := by
  simp [TopologyForwarder.run, TopologyForwarder.step, TopologyForwarder.handle,
    TopologyForwarder.environment, TopologyForwarder.notify, TopologyForwarder.OnNodeAdded,
    TopologyForwarder.OnNewMaster, TopologyForwarder.triggerResync,
    TopologyForwarder.logCall, TopologyForwarder.doRLock, TopologyForwarder.doRUnlock,
    TopologyForwarder.doElements, TopologyForwarder.doSend, TopologyForwarder.delivered,
    MasterElection.SendMessageToMaster, NewTopologyForwarder, NewMasterElection, emptyGraph,
    Graph.commit, Graph.Elements, Graph.RLock, Graph.RUnlock, NewStructMessage, fullSync]

/-- C6: for every forwarder state, `OnNewMaster(nil)` adds one effect only, the warning
`Lost connection to master`: it calls neither `SendMessageToMaster` nor `RLock` nor
`Elements`, and it leaves the graph, the election and what was delivered as they were. -/
theorem C6_OnNewMaster_nil_only_warns (t : TopologyForwarder) :
    effectsSince t (t.OnNewMaster none) =
      [Effect.log LogLevel.Warn "Lost connection to master"] ∧
    sentMessages (t.OnNewMaster none) = sentMessages t ∧
    (t.OnNewMaster none).graph = t.graph ∧
    (t.OnNewMaster none).masterElection = t.masterElection := by
  refine ⟨effectsSince_of_append t _ _ rfl, ?_, rfl, rfl⟩
  simp [sentMessages, TopologyForwarder.OnNewMaster, TopologyForwarder.logCall,
    List.filterMap_append, Effect.sentMessage]

/-- C7: while no master is elected, each of the six mutation handlers, for every
element, returns (the handlers are total functions with no error result) and leaves the
election untouched: nothing is added to what was delivered to any endpoint, given that
`SendMessageToMaster` does nothing when there is no master. -/
theorem C7_no_master_no_delivery (t : TopologyForwarder) (n : Node) (e : Edge)
    (h : t.masterElection.master = none) :
    (t.OnNodeAdded n).delivered = t.delivered ∧
    (t.OnNodeUpdated n).delivered = t.delivered ∧
    (t.OnNodeDeleted n).delivered = t.delivered ∧
    (t.OnEdgeAdded e).delivered = t.delivered ∧
    (t.OnEdgeUpdated e).delivered = t.delivered ∧
    (t.OnEdgeDeleted e).delivered = t.delivered ∧
    ∀ μ : Mutation, (t.notify μ).masterElection = t.masterElection := by
  refine ⟨?_, ?_, ?_, ?_, ?_, ?_, ?_⟩
  · exact congrArg MasterElection.delivered (doSend_delivered_none t _ h)
  · exact congrArg MasterElection.delivered (doSend_delivered_none t _ h)
  · exact congrArg MasterElection.delivered (doSend_delivered_none t _ h)
  · exact congrArg MasterElection.delivered (doSend_delivered_none t _ h)
  · exact congrArg MasterElection.delivered (doSend_delivered_none t _ h)
  · exact congrArg MasterElection.delivered (doSend_delivered_none t _ h)
  · intro μ
    rw [notify_eq_doSend]
    exact doSend_delivered_none t _ h

/-- Witness of C7 on the fresh forwarder, which has no master. -/
theorem C7_no_master_no_delivery_witness :
    freshForwarder.masterElection.master = none ∧
    (freshForwarder.OnNodeAdded nodeA).delivered = [] ∧
    (freshForwarder.OnEdgeDeleted edgeE).delivered = [] :=
  ⟨rfl, (C7_no_master_no_delivery freshForwarder nodeA edgeE rfl).1,
    (C7_no_master_no_delivery freshForwarder nodeA edgeE rfl).2.2.2.2.2.1⟩

/-- C8, as the spec words it, fails: in the resync of a forwarder on a graph holding
node A, the effects other than the logger calls are not lock, export, release, send;
and the call of `SendMessageToMaster` happens with the read lock held once. -/
theorem C8_resync_order_counterexample :
    (effectsSince electedForwarder (electedForwarder.OnNewMaster (some speakerM2))).filter
        (fun x => !x.isLog) ≠
      [ Effect.rlock,
        Effect.elements { Nodes := [nodeA], Edges := [] },
        Effect.runlock,
        Effect.send (fullSync { Nodes := [nodeA], Edges := [] }) ] ∧
    ¬ (∀ p ∈ lockDepths 0
          (effectsSince electedForwarder (electedForwarder.OnNewMaster (some speakerM2))),
        p.1.isSend = true → p.2 = 0) := by
  decide

/-- C8, amended: in a resync reached from `OnNewMaster` with a non-nil speaker the
effects are, in this order: the two logger calls, the read lock taken, the snapshot
exported, the FullSync of that snapshot sent to the current master, the read lock
released.  The release is deferred to the return of `triggerResync`: the lock is held
once when `SendMessageToMaster` is called and is back to its count when the handler
returns. -/
theorem C8_resync_order_amended (t : TopologyForwarder) (c : Speaker) :
    effectsSince t (t.OnNewMaster (some c)) =
      [ Effect.log LogLevel.Info
          ("Using " ++ c.addr ++ ":" ++ toString c.port ++ " as master of topology forwarder"),
        Effect.log LogLevel.Info ("Start a re-sync for " ++ t.host),
        Effect.rlock,
        Effect.elements t.graph.Elements,
        Effect.send (fullSync t.graph.Elements),
        Effect.runlock ] ∧
    (lockDepths 0 (effectsSince t (t.OnNewMaster (some c)))).filter (fun p => p.1.isSend) =
      [(Effect.send (fullSync t.graph.Elements), 1)] ∧
    (t.OnNewMaster (some c)).graph.readers = t.graph.readers := by
  rw [effectsSince_of_append t _ _ (OnNewMaster_some_effects t c), OnNewMaster_some_graph]
  simp [lockDepths, Effect.isSend]

/-- C9: no handler of the forwarder changes the graph.  For every state and every
event (a change of master, nil or not, or any of the six mutations) the graph after
the handler is the graph before it: same elements, same count of read-lock holders;
and in the effects the handler adds, every call of `Graph.Elements()` happens with
the read lock taken by the handler still held. -/
theorem C9_handlers_do_not_mutate_graph (t : TopologyForwarder) (ev : Event) :
    (t.handle ev).graph.Elements = t.graph.Elements ∧
    (t.handle ev).graph.readers = t.graph.readers ∧
    (t.handle ev).graph = t.graph ∧
    ∀ p ∈ lockDepths 0 (effectsSince t (t.handle ev)), p.1.isElements = true → 0 < p.2 := by
  have hg : (t.handle ev).graph = t.graph := by
    cases ev with
    | masterChanged c =>
      cases c with
      | none => rfl
      | some c => exact OnNewMaster_some_graph t c
    | mutated μ => rw [TopologyForwarder.handle, notify_eq_doSend]; rfl
  refine ⟨by rw [hg], by rw [hg], hg, ?_⟩
  cases ev with
  | masterChanged c =>
    cases c with
    | none =>
      rw [TopologyForwarder.handle, effectsSince_of_append t _ _ rfl]
      simp [lockDepths, Effect.isElements]
    | some c =>
      rw [TopologyForwarder.handle, effectsSince_of_append t _ _ (OnNewMaster_some_effects t c)]
      simp [lockDepths, Effect.isElements]
  | mutated μ =>
    rw [TopologyForwarder.handle, notify_eq_doSend,
      effectsSince_of_append t _ _ (doSend_effects t _)]
    simp [lockDepths, Effect.isElements]

/-! ## Interleaved runs: facts -/

theorem runActions_append (t : TopologyForwarder) (a b : List Action) :
    t.runActions (a ++ b) = (t.runActions a).runActions b := by
  simp [TopologyForwarder.runActions, List.foldl_append]

theorem runActions_cons (t : TopologyForwarder) (a : Action) (rest : List Action) :
    t.runActions (a :: rest) = (t.act a).runActions rest := rfl

theorem act_graphStep_some (t : TopologyForwarder) (g : GraphStep) (m : Speaker)
    (h : t.masterElection.master = some m) :
    (t.act g.toAction).masterElection.master = some m ∧
    (t.act g.toAction).delivered =
      t.delivered ++ (notifiedMutations [g]).map (fun μ => (m, expectedMessage μ)) := by
  cases g with
  | commit μ =>
    simp [GraphStep.toAction, TopologyForwarder.act, TopologyForwarder.environment,
      TopologyForwarder.delivered, notifiedMutations, GraphStep.notified, h]
  | notify μ =>
    simp [GraphStep.toAction, TopologyForwarder.act, TopologyForwarder.handle,
      notify_eq_doSend, TopologyForwarder.doSend, MasterElection.SendMessageToMaster,
      TopologyForwarder.delivered, notifiedMutations, GraphStep.notified, h]

theorem runActions_graphSteps_some (steps : List GraphStep) :
    ∀ (t : TopologyForwarder) (m : Speaker), t.masterElection.master = some m →
      (t.runActions (steps.map GraphStep.toAction)).masterElection.master = some m ∧
      (t.runActions (steps.map GraphStep.toAction)).delivered =
        t.delivered ++ (notifiedMutations steps).map (fun μ => (m, expectedMessage μ)) := by
  induction steps with
  | nil => intro t m h; simp [TopologyForwarder.runActions, notifiedMutations, h]
  | cons g rest ih =>
    intro t m h
    obtain ⟨h1, h2⟩ := act_graphStep_some t g m h
    obtain ⟨k1, k2⟩ := ih (t.act g.toAction) m h1
    simp only [List.map_cons, runActions_cons]
    refine ⟨k1, ?_⟩
    rw [k2, h2]
    cases g <;> simp [notifiedMutations, GraphStep.notified]

theorem act_graphStep_other (t : TopologyForwarder) (g : GraphStep) (c : Speaker)
    (h : t.masterElection.master ≠ some c) :
    (t.act g.toAction).masterElection.master = t.masterElection.master ∧
    ∃ extra, (t.act g.toAction).delivered = t.delivered ++ extra ∧
      deliveredTo c extra = [] := by
  cases g with
  | commit μ =>
    exact ⟨rfl, [], by simp [GraphStep.toAction, TopologyForwarder.act,
      TopologyForwarder.environment, TopologyForwarder.delivered], rfl⟩
  | notify μ =>
    cases hm : t.masterElection.master with
    | none =>
      refine ⟨?_, [], ?_, rfl⟩
      · simp [GraphStep.toAction, TopologyForwarder.act, TopologyForwarder.handle,
          notify_eq_doSend, TopologyForwarder.doSend, MasterElection.SendMessageToMaster, hm]
      · simp [GraphStep.toAction, TopologyForwarder.act, TopologyForwarder.handle,
          notify_eq_doSend, TopologyForwarder.doSend, MasterElection.SendMessageToMaster, hm,
          TopologyForwarder.delivered]
    | some m0 =>
      have hne : m0 ≠ c := fun e => h (by rw [hm, e])
      refine ⟨?_, [(m0, expectedMessage μ)], ?_, ?_⟩
      · simp [GraphStep.toAction, TopologyForwarder.act, TopologyForwarder.handle,
          notify_eq_doSend, TopologyForwarder.doSend, MasterElection.SendMessageToMaster, hm]
      · simp [GraphStep.toAction, TopologyForwarder.act, TopologyForwarder.handle,
          notify_eq_doSend, TopologyForwarder.doSend, MasterElection.SendMessageToMaster, hm,
          TopologyForwarder.delivered]
      · simp [deliveredTo, hne]

theorem deliveredTo_append (c : Speaker) (a b : List (Speaker × StructMessage)) :
    deliveredTo c (a ++ b) = deliveredTo c a ++ deliveredTo c b := by
  simp [deliveredTo]

theorem deliveredTo_same (c : Speaker) (msgs : List StructMessage) :
    deliveredTo c (msgs.map (fun x => (c, x))) = msgs := by
  induction msgs with
  | nil => rfl
  | cons x rest ih =>
    simp only [deliveredTo, List.map_cons] at ih ⊢
    simp [ih]

theorem runActions_graphSteps_other (steps : List GraphStep) (c : Speaker) :
    ∀ (t : TopologyForwarder), t.masterElection.master ≠ some c →
      ∃ extra, (t.runActions (steps.map GraphStep.toAction)).delivered = t.delivered ++ extra ∧
        deliveredTo c extra = [] := by
  induction steps with
  | nil => intro t _; exact ⟨[], by simp [TopologyForwarder.runActions], rfl⟩
  | cons g rest ih =>
    intro t h
    obtain ⟨h1, x1, h2, h3⟩ := act_graphStep_other t g c h
    obtain ⟨x2, k2, k3⟩ := ih (t.act g.toAction) (by rw [h1]; exact h)
    refine ⟨x1 ++ x2, ?_, ?_⟩
    · simp only [List.map_cons, runActions_cons]
      rw [k2, h2, List.append_assoc]
    · rw [deliveredTo_append, h3, k3]; rfl

theorem raceSchedule_delivered (t : TopologyForwarder) (c : Speaker)
    (before between after : List GraphStep) :
    (t.runActions (raceSchedule c before between after)).delivered =
      (t.runActions (before.map GraphStep.toAction)).delivered ++
        ((notifiedMutations between).map (fun μ => (c, expectedMessage μ)) ++
          (c, fullSync (t.runActions (before.map GraphStep.toAction ++
              Action.collaborator (Event.masterChanged (some c)) ::
                between.map GraphStep.toAction)).graph.Elements) ::
            (notifiedMutations after).map (fun μ => (c, expectedMessage μ))) := by
  simp only [raceSchedule, runActions_append, runActions_cons]
  generalize t.runActions (before.map GraphStep.toAction) = tA
  have e1 : (tA.act (Action.collaborator (Event.masterChanged (some c)))).masterElection.master
      = some c := rfl
  have d1 : (tA.act (Action.collaborator (Event.masterChanged (some c)))).delivered
      = tA.delivered := rfl
  obtain ⟨b1, b2⟩ := runActions_graphSteps_some between _ c e1
  generalize (tA.act (Action.collaborator (Event.masterChanged (some c)))).runActions
    (between.map GraphStep.toAction) = tB at b1 b2 ⊢
  have e2 : (tB.act (Action.callback (Event.masterChanged (some c)))).masterElection.master
      = some c := by
    simp [TopologyForwarder.act, TopologyForwarder.handle, OnNewMaster_some_election,
      MasterElection.SendMessageToMaster, b1]
  have d2 : (tB.act (Action.callback (Event.masterChanged (some c)))).delivered
      = tB.delivered ++ [(c, fullSync tB.graph.Elements)] := by
    simp [TopologyForwarder.act, TopologyForwarder.handle, OnNewMaster_some_election,
      MasterElection.SendMessageToMaster, b1, TopologyForwarder.delivered]
  obtain ⟨_, c2⟩ := runActions_graphSteps_some after _ c e2
  rw [c2, d2, b2, d1]
  simp

/-- C10, as the spec words it, fails: the forwarder has no send-path lock or queue.
On the fresh forwarder, take the interleaving of the election of the first endpoint
with the addition of node A in which the election makes the endpoint the master, the
graph commits A and calls `OnNodeAdded(A)`, and only then `OnNewMaster` runs: the
endpoint gets `NodeAdded(A)`, generated after the change of master, before the
FullSync. -/
theorem C10_interleaving_counterexample :
    isInterleaving (electionThread (some speakerM1)) (graphThread [Mutation.NodeAdded nodeA])
      [ Action.collaborator (Event.masterChanged (some speakerM1)),
        Action.collaborator (Event.mutated (Mutation.NodeAdded nodeA)),
        Action.callback (Event.mutated (Mutation.NodeAdded nodeA)),
        Action.callback (Event.masterChanged (some speakerM1)) ] = true ∧
    deliveredTo speakerM1 (freshForwarder.runActions
      [ Action.collaborator (Event.masterChanged (some speakerM1)),
        Action.collaborator (Event.mutated (Mutation.NodeAdded nodeA)),
        Action.callback (Event.mutated (Mutation.NodeAdded nodeA)),
        Action.callback (Event.masterChanged (some speakerM1)) ]).delivered =
      [ { msgType := MsgType.NodeAddedMsgType, Obj := Payload.node nodeA },
        fullSync { Nodes := [nodeA], Edges := [] } ] := by
  decide

/-- C10, amended: the forwarder does not serialize its send path; its handlers call
`SendMessageToMaster` directly.  Take any state whose master is not `c` and any
schedule in which graph steps come before the election makes `c` the master, between
that and the callback `OnNewMaster(c)`, and after the callback.  The messages that
reach `c` in the schedule are: the incremental messages of the listener calls that fall
between the two steps of the election, then the FullSync of the graph as it is when the
callback runs, then the incremental messages of the listener calls after the callback.
So the FullSync is the first message `c` gets when no listener call falls between the
two steps of the election, and an incremental message is the first when one does. -/
theorem C10_interleaving_amended (t : TopologyForwarder) (c : Speaker)
    (before between after : List GraphStep) (h : t.masterElection.master ≠ some c) :
    deliveredTo c
        ((t.runActions (raceSchedule c before between after)).delivered.drop
          t.delivered.length) =
      (notifiedMutations between).map expectedMessage ++
        fullSync (t.runActions (before.map GraphStep.toAction ++
            Action.collaborator (Event.masterChanged (some c)) ::
              between.map GraphStep.toAction)).graph.Elements ::
          (notifiedMutations after).map expectedMessage ∧
    (notifiedMutations between = [] →
      (deliveredTo c
        ((t.runActions (raceSchedule c before between after)).delivered.drop
          t.delivered.length)).head? =
        some (fullSync (t.runActions (before.map GraphStep.toAction ++
            Action.collaborator (Event.masterChanged (some c)) ::
              between.map GraphStep.toAction)).graph.Elements)) ∧
    (∀ μ rest, notifiedMutations between = μ :: rest →
      (deliveredTo c
        ((t.runActions (raceSchedule c before between after)).delivered.drop
          t.delivered.length)).head? = some (expectedMessage μ)) := by
  have main : deliveredTo c
        ((t.runActions (raceSchedule c before between after)).delivered.drop
          t.delivered.length) =
      (notifiedMutations between).map expectedMessage ++
        fullSync (t.runActions (before.map GraphStep.toAction ++
            Action.collaborator (Event.masterChanged (some c)) ::
              between.map GraphStep.toAction)).graph.Elements ::
          (notifiedMutations after).map expectedMessage := by
    obtain ⟨extra, x1, x2⟩ := runActions_graphSteps_other before c t h
    rw [raceSchedule_delivered, x1, List.append_assoc, List.drop_left, deliveredTo_append, x2,
      List.nil_append]
    have e : ∀ l : List Mutation, l.map (fun μ => (c, expectedMessage μ)) =
        (l.map expectedMessage).map (fun x => (c, x)) := by
      intro l; simp
    rw [e, e]
    have e2 : ∀ (x : StructMessage) (l : List StructMessage),
        (c, x) :: l.map (fun y => (c, y)) = (x :: l).map (fun y => (c, y)) := by
      intro x l; rfl
    rw [e2, ← List.map_append, deliveredTo_same]
  refine ⟨main, ?_, ?_⟩
  · intro hb
    rw [main, hb]; rfl
  · intro μ rest hb
    rw [main, hb]; rfl

/-- Witness of the amended C10 on the fresh forwarder: node A is committed and its
listener called between the two steps of the election of the first endpoint. -/
theorem C10_interleaving_amended_witness :
    freshForwarder.masterElection.master ≠ some speakerM1 ∧
    deliveredTo speakerM1
        ((freshForwarder.runActions (raceSchedule speakerM1 []
          [GraphStep.commit (Mutation.NodeAdded nodeA),
           GraphStep.notify (Mutation.NodeAdded nodeA)] [])).delivered.drop
          freshForwarder.delivered.length) =
      [ { msgType := MsgType.NodeAddedMsgType, Obj := Payload.node nodeA },
        fullSync { Nodes := [nodeA], Edges := [] } ] :=
  ⟨by decide, (C10_interleaving_amended freshForwarder speakerM1 []
    [GraphStep.commit (Mutation.NodeAdded nodeA), GraphStep.notify (Mutation.NodeAdded nodeA)]
    [] (by decide)).1⟩

end Skydive
